import Mathlib

/-!
Verification development for the `cve_pipeline` repository
(Orchestration & Recovery subsystem).

The Python modules under `cve_pipeline/` are shallowly embedded as
executable Lean definitions:

* `core/state_manager.py` — the SQLite-backed Store (`Store`, `addTarget`,
  `updateTaskStatus`, `getPendingTasks`, `addFinding`, plus the thread-local
  connection lifecycle used by `checkpoint`);
* `modules/router.py` — URL classification, dedup signatures and routing
  (`parseUrl`, `getSignature`, `classify`, `routeTargets`);
* `modules/scanner.py` — the per-unit scan dispatch (`scanTarget`) over an
  environment describing each subprocess call's outcome;
* `core/orchestrator.py` — the run skeleton up to scheduling (`runPipeline`,
  `runScans`);
* `utils/scope_guard.py` — `isInScope`.

URLs are handled as `List Char` internally (mirroring Python's per-character
string operations) and as `String` at the API surface.
-/

namespace CVE

abbrev Chars := List Char

/-- Python `str.lower()` restricted to the ASCII range actually exercised by
the pipeline's URL handling. -/
def toLowerL (l : Chars) : Chars := l.map Char.toLower

/-- Substring search, the semantics of `re.search` for a plain-text pattern:
does `pat` occur contiguously inside `l`? -/
def containsSub (pat : Chars) : Chars → Bool
  | [] => pat.isEmpty
  | c :: rest => pat.isPrefixOf (c :: rest) || containsSub pat rest

/-- The regex fragment `/v\d+` of `Router.API_PATTERN`: a `'/'` followed by
`'v'` followed by at least one digit, anywhere in the (lowercased) input. -/
def hasVNum : Chars → Bool
  | a :: b :: c :: rest => (a = '/' && b = 'v' && c.isDigit) || hasVNum (b :: c :: rest)
  | _ => false

/-- Split at the first occurrence of `c`: returns the part before it and,
when `c` occurs, the part after it (Python `s.split(c, 1)`). -/
def breakAtFirst (c : Char) : Chars → Chars × Option Chars
  | [] => ([], none)
  | x :: rest =>
    if x = c then ([], some rest)
    else
      let r := breakAtFirst c rest
      (x :: r.1, r.2)

/-- Python `s.split(c)`: every occurrence of `c` separates fields. -/
def splitOnChar (c : Char) : Chars → List Chars
  | [] => [[]]
  | x :: rest =>
    let r := splitOnChar c rest
    if x = c then [] :: r
    else
      match r with
      | [] => [[x]]
      | h :: t => (x :: h) :: t

/-- ASCII whitespace stripped by Python `str.strip()` on the URLs at hand. -/
def isPySpace (c : Char) : Bool :=
  c = ' ' || c = '\t' || c = '\n' || c = '\r' || c = '\x0b' || c = '\x0c'

/-- Python `str.strip()`. -/
def stripL (l : Chars) : Chars :=
  ((l.dropWhile isPySpace).reverse.dropWhile isPySpace).reverse

/-- String-level `strip`. -/
def strip (s : String) : String := (stripL s.data).asString

/-! ### URL parsing (`urllib.parse.urlparse`, the fields the pipeline uses) -/

/-- The (netloc, path, query) triple that `urlparse` yields; the pipeline never
reads the other fields. -/
structure UrlParts where
  netloc : Chars
  path : Chars
  query : Chars
deriving Repr, DecidableEq

/-- `urlparse`'s scheme test: the text before the first `':'` parses as a
scheme iff it is a letter followed by letters/digits/`+`/`-`/`.`. -/
def validScheme : Chars → Bool
  | [] => false
  | c :: rest => c.isAlpha && rest.all (fun x => x.isAlphanum || x = '+' || x = '-' || x = '.')

/-- `urlparse(url)` restricted to netloc/path/query: fragment split first,
then the scheme, then a netloc only after a leading `//`, then the query
after the first `'?'`. -/
def parseUrl (url0 : Chars) : UrlParts :=
  let url := (breakAtFirst '#' url0).1
  let sc := breakAtFirst ':' url
  let rest :=
    match sc.2 with
    | some a => if validScheme sc.1 then a else url
    | none => url
  match rest with
  | '/' :: '/' :: r =>
    let nl := r.takeWhile (fun c => !(c = '/' || c = '?'))
    let r2 := r.dropWhile (fun c => !(c = '/' || c = '?'))
    let pq := breakAtFirst '?' r2
    { netloc := nl, path := pq.1, query := pq.2.getD [] }
  | _ =>
    let pq := breakAtFirst '?' rest
    { netloc := [], path := pq.1, query := pq.2.getD [] }

/-- `ParseResult.hostname`: userinfo before the last `'@'` dropped, port after
`':'` dropped, lowercased. -/
def hostOfNetloc (nl : Chars) : Chars :=
  let afterAt := ((nl.reverse.takeWhile (· ≠ '@'))).reverse
  toLowerL (afterAt.takeWhile (· ≠ ':'))

/-! ### Query-string handling (`parse_qs` / `urlencode`) -/

/-- Hex digit value, for percent-decoding. -/
def hexVal (c : Char) : Option Nat :=
  if c.isDigit then some (c.toNat - 48)
  else if 'A' ≤ c && c ≤ 'F' then some (c.toNat - 55)
  else if 'a' ≤ c && c ≤ 'f' then some (c.toNat - 87)
  else none

/-- `urllib.parse.unquote_plus` on the ASCII inputs the pipeline handles:
`'+'` becomes a space and `%XX` decodes to the byte `XX`. (CPython decodes
multi-byte UTF-8 percent-runs as a unit; such runs do not occur in the
modelled inputs, a single high byte here decodes byte-wise.) -/
def unquotePlusL : Chars → Chars
  | [] => []
  | '+' :: rest => ' ' :: unquotePlusL rest
  | '%' :: a :: b :: rest =>
    match hexVal a, hexVal b with
    | some x, some y => Char.ofNat (16 * x + y) :: unquotePlusL rest
    | _, _ => '%' :: unquotePlusL (a :: b :: rest)
  | c :: rest => c :: unquotePlusL rest

/-- `urllib.parse.parse_qsl(query, keep_blank_values=keepBlank)`:
split on `'&'`, skip empty chunks, split each chunk at the first `'='`
(a chunk without `'='` survives only under `keepBlank`, with an empty value;
an empty value with `'='` present also survives only under `keepBlank`),
then unquote names and values. -/
def qslPairs (keepBlank : Bool) (q : Chars) : List (Chars × Chars) :=
  (splitOnChar '&' q).filterMap fun part =>
    if part.isEmpty then none
    else
      match breakAtFirst '=' part with
      | (name, some value) =>
        if value.isEmpty && !keepBlank then none
        else some (unquotePlusL name, unquotePlusL value)
      | (name, none) =>
        if keepBlank then some (unquotePlusL name, []) else none

/-- The keys of the `parse_qs(...)` dict, in first-occurrence order (Python
dicts preserve insertion order; `parse_qs` inserts at a name's first hit). -/
def dictKeys (ps : List (Chars × Chars)) : List Chars :=
  ps.foldl (fun acc p => if p.1 ∈ acc then acc else acc ++ [p.1]) []

/-- Uppercase hex digit. -/
def hexDigitU (n : Nat) : Char :=
  if n < 10 then Char.ofNat (48 + n) else Char.ofNat (55 + n)

/-- UTF-8 bytes of a code point (what `quote_plus` percent-encodes). -/
def utf8Bytes (c : Char) : List Nat :=
  let n := c.toNat
  if n < 0x80 then [n]
  else if n < 0x800 then [0xC0 + n / 64, 0x80 + n % 64]
  else if n < 0x10000 then [0xE0 + n / 4096, 0x80 + (n / 64) % 64, 0x80 + n % 64]
  else [0xF0 + n / 262144, 0x80 + (n / 4096) % 64, 0x80 + (n / 64) % 64, 0x80 + n % 64]

/-- `urllib.parse.quote_plus` on one character: unreserved characters pass
through, space becomes `'+'`, everything else is percent-encoded. -/
def quotePlusChar (c : Char) : Chars :=
  if c.isAlphanum || c = '_' || c = '.' || c = '-' || c = '~' then [c]
  else if c = ' ' then ['+']
  else ((utf8Bytes c).map (fun b => ['%', hexDigitU (b / 16), hexDigitU (b % 16)])).flatten

/-- `urllib.parse.quote_plus`. -/
def quotePlusL (l : Chars) : Chars := (l.map quotePlusChar).flatten

/-- `urlencode({k: "" for k in ks})`: each key quoted, suffixed `'='`, joined
with `'&'` in the order given. -/
def encodeKeys (ks : List Chars) : Chars :=
  (List.intersperse ['&'] (ks.map (fun k => quotePlusL k ++ ['=']))).flatten

/-! ### Router (`modules/router.py`) -/

/-- `sorted(parse_qs(query, keep_blank_values=True).keys())`. The dict keys
are the distinct names in first-occurrence order; `dedup` yields the same
set with no duplicates, and sorting makes the representative order
irrelevant. The order on `List Char` is lexicographic by code point,
exactly Python's string order. -/
def sortedKeysOf (q : Chars) : List Chars :=
  List.insertionSort (· ≤ ·) ((qslPairs true q).map (·.1)).dedup

/-- `Router._get_signature`:
`f"{parsed.netloc}{parsed.path}?{urlencode({k: '' for k in sorted_keys})}"`.
(The `try/except` fallback to the raw URL is unreachable here: every step of
the embedded computation is total.) -/
def getSignatureL (url : Chars) : Chars :=
  let p := parseUrl url
  p.netloc ++ p.path ++ '?' :: encodeKeys (sortedKeysOf p.query)

/-- String-level signature. -/
def getSignature (url : String) : String := (getSignatureL url.data).asString

/-- `Router.STATIC_EXTENSIONS`. -/
def STATIC_EXTENSIONS : List Chars :=
  ([".css", ".png", ".jpg", ".jpeg", ".gif", ".svg",
    ".woff", ".woff2", ".ttf", ".ico", ".pdf"] : List String).map String.data

/-- `Router._is_static_asset`: `parsed.path.lower().endswith(STATIC_EXTENSIONS)`. -/
def isStaticAsset (url : String) : Bool :=
  STATIC_EXTENSIONS.any (fun e => e.isSuffixOf (toLowerL (parseUrl url.data).path))

/-- `Router.LOGIN_PATTERN.search(url)`: the alternation
`login|signin|auth|admin|dashboard|panel|wp-login`, case-insensitive, so a
substring search over the lowercased URL. -/
def loginMatch (url : Chars) : Bool :=
  let l := toLowerL url
  (["login", "signin", "auth", "admin", "dashboard", "panel", "wp-login"] : List String).any
    (fun w => containsSub w.data l)

/-- `Router.API_PATTERN.search(url)`: `/api/|/v\d+|/graphql|/rest`,
case-insensitive. -/
def apiMatch (url : Chars) : Bool :=
  let l := toLowerL url
  containsSub "/api/".data l || hasVNum l ||
    containsSub "/graphql".data l || containsSub "/rest".data l

/-- `Router.CMS_PATTERN.search(url)`: `/wp-|/joomla|/drupal|/magento|/wordpress`,
case-insensitive. -/
def cmsMatch (url : Chars) : Bool :=
  let l := toLowerL url
  (["/wp-", "/joomla", "/drupal", "/magento", "/wordpress"] : List String).any
    (fun w => containsSub w.data l)

/-- `router.TargetType`. -/
inductive TargetType
  | dynamic
  | login
  | js_file
  | api
  | static
  | cms
deriving DecidableEq, Repr

/-- The enum's `.value` strings. -/
def TargetType.value : TargetType → String
  | .dynamic => "dynamic"
  | .login => "login"
  | .js_file => "js_file"
  | .api => "api"
  | .static => "static"
  | .cms => "cms"

/-- `router.RoutedTarget` (the `tech_stack` field is never set by the code
under verification and is omitted). -/
structure RoutedTarget where
  url : String
  targetType : TargetType
  parameters : List String
deriving DecidableEq, Repr

/-- `list(parse_qs(parsed.query).keys())` (default `keep_blank_values=False`),
as used by `Router._classify`. -/
def classifyParams (q : Chars) : List String :=
  (dictKeys (qslPairs false q)).map List.asString

/-- `Router._classify`: ordered first-match rules
API > CMS > `.js` path > login > has-params > static. -/
def classify (url : String) : RoutedTarget :=
  let parsed := parseUrl url.data
  let pathLower := toLowerL parsed.path
  let params := classifyParams parsed.query
  if apiMatch url.data then ⟨url, .api, params⟩
  else if cmsMatch url.data then ⟨url, .cms, []⟩
  else if ".js".data.isSuffixOf pathLower then ⟨url, .js_file, []⟩
  else if loginMatch url.data then ⟨url, .login, []⟩
  else if params ≠ [] then ⟨url, .dynamic, params⟩
  else ⟨url, .static, []⟩

/-! ### Persistent Store (`core/state_manager.py`) -/

/-- A row of the `targets` table. `created_at`/`updated_at` are wall-clock
timestamps and are not modelled. -/
structure Target where
  id : Nat
  url : String
  status : String
  stage : String
deriving DecidableEq, Repr

/-- A row of the `findings` table. -/
structure Finding where
  target_id : Nat
  tool : String
  severity : String
  description : String
  confidence : String
deriving DecidableEq, Repr

/-- The two tables plus the next AUTOINCREMENT id. Rows are kept in rowid
(insertion) order. -/
structure Store where
  targets : List Target
  findings : List Finding
  nextId : Nat
deriving DecidableEq, Repr

/-- The freshly initialised database (`_init_db`). -/
def emptyStore : Store := ⟨[], [], 1⟩

/-- `StateManager.add_target`: `INSERT OR IGNORE INTO targets (url, stage,
status) VALUES (?, ?, 'pending')` — a no-op when a row with this url exists
(`url` is UNIQUE). -/
def addTarget (s : Store) (url : String) (stage : String := "recon") : Store :=
  if s.targets.any (fun t => decide (t.url = url)) then s
  else
    { s with
      targets := s.targets ++ [{ id := s.nextId, url := url, status := "pending", stage := stage }]
      nextId := s.nextId + 1 }

/-- The per-row effect of the UPDATE in `update_task_status`; the Python
`if stage:` picks the two-column SET only for a truthy (non-`None`,
non-empty) stage. -/
def applyUpd (status : String) (stage : Option String) (t : Target) : Target :=
  match stage with
  | some sg => if sg ≠ "" then { t with status := status, stage := sg } else { t with status := status }
  | none => { t with status := status }

/-- `StateManager.update_task_status`: `UPDATE targets SET ... WHERE url = ?`.
An unknown url matches zero rows and the call is a silent no-op; no guard
compares the new status with the stored one. -/
def updateTaskStatus (s : Store) (url status : String) (stage : Option String := none) : Store :=
  { s with targets := s.targets.map (fun t => if t.url = url then applyUpd status stage t else t) }

/-- `StateManager.get_pending_tasks`: `SELECT * FROM targets WHERE status =
'pending' LIMIT ?`. No ORDER BY is given; rows are modelled in rowid order. -/
def getPendingTasks (s : Store) (limit : Nat := 100) : List Target :=
  (s.targets.filter (fun t => decide (t.status = "pending"))).take limit

/-- `SELECT id FROM targets WHERE url = ?` + `fetchone()`. -/
def findTarget (s : Store) (url : String) : Option Target :=
  s.targets.find? (fun t => decide (t.url = url))

/-- `StateManager.add_finding`. The Bool is the `"Orphaned finding"` warning:
`true` means the target url was not found, the finding was dropped and the
method returned early. -/
def addFinding (s : Store) (targetUrl tool severity description : String)
    (confidence : String := "LOW") : Store × Bool :=
  match findTarget s targetUrl with
  | none => (s, true)
  | some t =>
    ({ s with findings := s.findings ++ [⟨t.id, tool, severity, description, confidence⟩] }, false)

/-! ### Routing over the Store -/

/-- The Router's mutable state: `seen_signatures` (a set, modelled as the
list of its elements) and the queues, flattened into processing order — the
per-type queue is the sublist with that `targetType`. -/
structure RouterState where
  seen : List String
  queues : List RoutedTarget
deriving DecidableEq, Repr

/-- A fresh `Router()`. -/
def emptyRouter : RouterState := ⟨[], []⟩

/-- One iteration of the loop in `Router.route_targets`: strip, skip empties
and static assets, dedup by signature, classify, enqueue, and mirror the
decision into the Store via `update_task_status(url, "pending",
stage=type.value)`. -/
def routeStep (acc : RouterState × Store) (url0 : String) : RouterState × Store :=
  let url := strip url0
  if url = "" then acc
  else if isStaticAsset url then acc
  else
    let sig := getSignature url
    if sig ∈ acc.1.seen then acc
    else
      let routed := classify url
      ({ seen := acc.1.seen ++ [sig], queues := acc.1.queues ++ [routed] },
        updateTaskStatus acc.2 url "pending" (some routed.targetType.value))

/-- `Router.route_targets`. -/
def routeTargets (store : Store) (rs : RouterState) (urls : List String) : RouterState × Store :=
  urls.foldl routeStep (rs, store)

/-! ### Scope guard (`utils/scope_guard.py`) -/

/-- `parsed.hostname or parsed.path` in `ScopeGuard.is_in_scope`
(`hostname` is `None` exactly when the extracted host is empty). -/
def scopeDomain (url : String) : Chars :=
  let p := parseUrl url.data
  let h := hostOfNetloc p.netloc
  if h.isEmpty then p.path else h

/-- `ScopeGuard.is_in_scope`: empty domain fails; the deny list is checked
first (`domain == excluded or domain.endswith("." + excluded)`); then the
allow list (`domain == allowed or domain.endswith(allowed)`). -/
def isInScope (allowed excluded : List String) (url : String) : Bool :=
  let domain := scopeDomain url
  if domain.isEmpty then false
  else if excluded.any (fun e => decide (domain = e.data) || ('.' :: e.data).isSuffixOf domain) then
    false
  else allowed.any (fun a => decide (domain = a.data) || a.data.isSuffixOf domain)

/-! ### Scanner (`modules/scanner.py`) -/

/-- `scanner.ScanResult` (`raw_output` carries no logic and is omitted). -/
structure ScanResult where
  tool : String
  target : String
  severity : String
  description : String
  success : Bool
deriving DecidableEq, Repr

/-- Outcome of one `subprocess.run` call: normal return carrying the data the
wrapper then parses from the tool's output, `subprocess.TimeoutExpired`, or
any other exception. -/
inductive Subproc (α : Type)
  | ok (a : α)
  | timeout
  | err
deriving DecidableEq, Repr

/-- The environment of one scan unit: what each tool invocation would yield.
`dispatchRaises` models an exception escaping the dispatch body of
`scan_target` itself (the tool wrappers catch their own). -/
structure ToolEnv where
  dalfox : Subproc (List ScanResult)
  sqlmap : Subproc Bool
  nuclei : Subproc (List ScanResult)
  hydraEnabled : Bool
  dispatchRaises : Bool
deriving DecidableEq, Repr

/-- `Scanner.run_dalfox`: on a normal exit the findings parsed from the
output file; on `TimeoutExpired` the caught handler appends a single
`"Scan timed out"` marker (severity INFO, `success=False`) and the wrapper
still returns normally; any other exception yields no results. -/
def runDalfox (env : ToolEnv) (url : String) : List ScanResult :=
  match env.dalfox with
  | .ok fs => fs
  | .timeout => [⟨"dalfox", url, "INFO", "Scan timed out", false⟩]
  | .err => []

/-- `Scanner.run_sqlmap`: a CRITICAL finding iff the tool output contains a
positive indicator; a timeout is caught and yields nothing. -/
def runSqlmap (env : ToolEnv) (url : String) : List ScanResult :=
  match env.sqlmap with
  | .ok true => [⟨"sqlmap", url, "CRITICAL", "SQL Injection Detected", true⟩]
  | .ok false => []
  | .timeout => []
  | .err => []

/-- `Scanner.run_nuclei` (also backing `run_secret_scan`): the findings
parsed from the output file on a normal exit; a timeout is caught and yields
nothing. -/
def runNuclei (env : ToolEnv) (url : String) : List ScanResult :=
  match env.nuclei with
  | .ok fs => fs
  | .timeout => []
  | .err => []

/-- `Scanner.run_hydra`: the fixed placeholder result. -/
def runHydra (url : String) : List ScanResult :=
  [⟨"hydra", url, "INFO", "Hydra placeholder - Requires manual configuration", false⟩]

/-- `Scanner.scan_target`: dispatch by target type inside a `try`; on normal
completion the Store status becomes `completed` (stage `scanned`); only an
exception escaping the dispatch body takes the `except` path marking the
target `failed` (modelled as raising before any results are collected). -/
def scanTarget (env : ToolEnv) (store : Store) (rt : RoutedTarget) : List ScanResult × Store :=
  if env.dispatchRaises then ([], updateTaskStatus store rt.url "failed" none)
  else
    let results :=
      match rt.targetType with
      | .dynamic => runDalfox env rt.url ++ runSqlmap env rt.url
      | .login => if env.hydraEnabled then runHydra rt.url else []
      | .cms => runNuclei env rt.url
      | .api => runNuclei env rt.url
      | .js_file => runNuclei env rt.url
      | .static => runNuclei env rt.url
    (results, updateTaskStatus store rt.url "completed" (some "scanned"))

/-! ### Orchestrator (`core/orchestrator.py`) -/

/-- `Orchestrator._run_scans` restricted to its data effect: every unit's
result list is appended to `self.all_findings` and each unit updates the
Store. Workers run concurrently in the source; the aggregation's content is
completion-order-independent and is modelled sequentially. -/
def runScans (env : ToolEnv) (store : Store) (targets : List RoutedTarget) :
    List ScanResult × Store :=
  targets.foldl
    (fun acc rt =>
      let r := scanTarget env acc.2 rt
      (acc.1 ++ r.1, r.2))
    ([], store)

/-- `Orchestrator.run` up to the scheduling decision: the resume check
(`get_pending_tasks(limit=500)`), the choice between resumed URLs and recon
output, and routing. Returns the flattened list of scan units that would be
submitted to the pool, plus the Store as routing leaves it. -/
def runPipeline (store : Store) (reconUrls : List String) : List RoutedTarget × Store :=
  let pending := getPendingTasks store 500
  let urls := if pending.isEmpty then reconUrls else pending.map (·.url)
  if urls.isEmpty then ([], store)
  else
    let r := routeTargets store emptyRouter urls
    (r.1.queues, r.2)

/-! ### Thread-local connection lifecycle (`_get_connection` / `checkpoint`)

`sqlite3` semantics assumed: `execute` on a closed connection raises
`ProgrammingError`; `close()` does not remove the object from
`threading.local`, so `_get_connection`'s `hasattr` check keeps returning
the closed object. -/

/-- The calling thread's cached connection slot. -/
structure Conn where
  cached : Bool
  closed : Bool
deriving DecidableEq, Repr

/-- `StateManager._get_connection`: returns the cached object whatever its
state; only an uncached thread gets a fresh open connection. -/
def getConn (c : Conn) : Conn :=
  if c.cached then c else { cached := true, closed := false }

/-- Store plus the calling thread's connection slot. -/
structure SM where
  store : Store
  conn : Conn
deriving DecidableEq, Repr

/-- Result of a call that has no exception handler. -/
inductive DbRes (α : Type)
  | ok (a : α)
  | raised
deriving DecidableEq, Repr

/-- `add_target` through the connection layer. The Bool records that the
`except` clause caught an error and logged it (the call itself returns
normally either way). -/
def smAddTarget (m : SM) (url stage : String) : SM × Bool :=
  let c := getConn m.conn
  if c.closed then ({ store := m.store, conn := c }, true)
  else ({ store := addTarget m.store url stage, conn := c }, false)

/-- `update_task_status` through the connection layer. -/
def smUpdateTaskStatus (m : SM) (url status : String) (stage : Option String) : SM × Bool :=
  let c := getConn m.conn
  if c.closed then ({ store := m.store, conn := c }, true)
  else ({ store := updateTaskStatus m.store url status stage, conn := c }, false)

/-- `add_finding` through the connection layer. -/
def smAddFinding (m : SM) (targetUrl tool severity description confidence : String) : SM × Bool :=
  let c := getConn m.conn
  if c.closed then ({ store := m.store, conn := c }, true)
  else ({ store := (addFinding m.store targetUrl tool severity description confidence).1, conn := c }, false)

/-- `get_pending_tasks` through the connection layer: it has no `try`, so a
closed connection's `execute` raises out of the call. -/
def smGetPendingTasks (m : SM) (limit : Nat) : DbRes (List Target) × SM :=
  let c := getConn m.conn
  if c.closed then (.raised, { store := m.store, conn := c })
  else (.ok (getPendingTasks m.store limit), { store := m.store, conn := c })

/-- `StateManager.checkpoint`: gets the thread's connection, runs
`wal_checkpoint` (raising if the connection is already closed — caught by the
bare `except: pass`), then `conn.close()`. The closed object stays cached. -/
def smCheckpoint (m : SM) : SM :=
  let c := getConn m.conn
  if c.closed then { store := m.store, conn := c }
  else { store := m.store, conn := { cached := true, closed := true } }

/-! ## Helper lemmas -/

/-- Does the `targets` table contain a row for `url`? (The UNIQUE-conflict
test of `INSERT OR IGNORE`.) -/
def hasUrl (s : Store) (url : String) : Bool :=
  s.targets.any (fun t => decide (t.url = url))

theorem hasUrl_iff {s : Store} {url : String} :
    hasUrl s url = true ↔ ∃ t ∈ s.targets, t.url = url := by
  simp [hasUrl, List.any_eq_true]

theorem addTarget_def (s : Store) (url stage : String) :
    addTarget s url stage =
      if hasUrl s url then s
      else
        { s with
          targets := s.targets ++ [{ id := s.nextId, url := url, status := "pending", stage := stage }]
          nextId := s.nextId + 1 } := rfl

theorem hasUrl_addTarget_self (s : Store) (url stage : String) :
    hasUrl (addTarget s url stage) url = true := by
  rw [addTarget_def]
  by_cases h : hasUrl s url = true
  · rw [if_pos h]; exact h
  · rw [if_neg h]
    simp [hasUrl, List.any_append]

theorem addTarget_noop {s : Store} {url : String} (stage : String)
    (h : hasUrl s url = true) : addTarget s url stage = s := by
  rw [addTarget_def, if_pos h]

/-- Calling `add_target` repeatedly for the same url. -/
def addTargetCalls (s : Store) (url : String) (stages : List String) : Store :=
  stages.foldl (fun a st => addTarget a url st) s

theorem addTargetCalls_noop {s : Store} {url : String} (stages : List String)
    (h : hasUrl s url = true) : addTargetCalls s url stages = s := by
  induction stages with
  | nil => rfl
  | cons st rest ih =>
    show addTargetCalls (addTarget s url st) url rest = s
    rw [addTarget_noop st h]
    exact ih

/-! ## Claims -/

/-- C5: `add_target(url, stage)` called N ≥ 1 times with the same url leaves
exactly one stored Target for that url, with status `pending` and the stage
supplied by the first call; every call after the first is a no-op on the
stored state. -/
theorem addTarget_idempotent (s : Store) (url st1 : String) (stages : List String)
    (h : hasUrl s url = false) :
    addTargetCalls s url (st1 :: stages) = addTarget s url st1 ∧
    ((addTargetCalls s url (st1 :: stages)).targets.filter
        (fun t => decide (t.url = url))).length = 1 ∧
    (∃ t ∈ (addTargetCalls s url (st1 :: stages)).targets,
        t.url = url ∧ t.status = "pending" ∧ t.stage = st1) ∧
    (∀ (a : Store) (st : String), hasUrl a url = true → addTarget a url st = a) := by
  have habs : ∀ t ∈ s.targets, ¬(t.url = url) := by
    intro t ht he
    have hc : hasUrl s url = true := hasUrl_iff.mpr ⟨t, ht, he⟩
    rw [h] at hc
    exact Bool.false_ne_true hc
  have hfold : addTargetCalls s url (st1 :: stages) = addTarget s url st1 := by
    show addTargetCalls (addTarget s url st1) url stages = addTarget s url st1
    exact addTargetCalls_noop stages (hasUrl_addTarget_self s url st1)
  have hadd : addTarget s url st1 =
      { s with
        targets := s.targets ++ [{ id := s.nextId, url := url, status := "pending", stage := st1 }]
        nextId := s.nextId + 1 } := by
    rw [addTarget_def, if_neg]
    intro hc
    obtain ⟨t, ht, he⟩ := hasUrl_iff.mp hc
    exact habs t ht he
  refine ⟨hfold, ?_, ?_, fun a st ha => addTarget_noop st ha⟩
  · rw [hfold, hadd]
    have h1 : s.targets.filter (fun t => decide (t.url = url)) = [] := by
      rw [List.filter_eq_nil_iff]
      intro t ht
      simpa using habs t ht
    simp [List.filter_append, h1]
  · rw [hfold, hadd]
    exact ⟨_, List.mem_append_right _ (List.mem_singleton.mpr rfl), rfl, rfl, rfl⟩

/-- Witness for C5 at a concrete store and call sequence. -/
theorem addTarget_idempotent_witness :
    hasUrl emptyStore "https://example.com/page1" = false ∧
    (addTargetCalls emptyStore "https://example.com/page1" ["recon", "router", "recon"] =
        addTarget emptyStore "https://example.com/page1" "recon" ∧
      ((addTargetCalls emptyStore "https://example.com/page1" ["recon", "router", "recon"]).targets.filter
          (fun t => decide (t.url = "https://example.com/page1"))).length = 1 ∧
      (∃ t ∈ (addTargetCalls emptyStore "https://example.com/page1" ["recon", "router", "recon"]).targets,
          t.url = "https://example.com/page1" ∧ t.status = "pending" ∧ t.stage = "recon") ∧
      (∀ (a : Store) (st : String), hasUrl a "https://example.com/page1" = true →
          addTarget a "https://example.com/page1" st = a)) :=
  ⟨by decide,
    addTarget_idempotent emptyStore "https://example.com/page1" "recon" ["router", "recon"]
      (by decide)⟩

/-- C6: for every targetUrl with no matching Target in the Store,
`add_finding` drops the finding (the findings table is unchanged), creates no
Target (the targets table is unchanged), logs a warning (the `true` flag),
and returns without raising (it is a total function returning the unchanged
store). -/
theorem addFinding_orphan_dropped (s : Store) (turl tool sev desc conf : String)
    (h : ∀ t ∈ s.targets, t.url ≠ turl) :
    addFinding s turl tool sev desc conf = (s, true) := by
  unfold addFinding findTarget
  have hn : s.targets.find? (fun t => decide (t.url = turl)) = none := by
    rw [List.find?_eq_none]
    intro t ht
    simpa using h t ht
  rw [hn]

/-- Witness for C6: a store holding a different url drops an orphan finding. -/
theorem addFinding_orphan_dropped_witness :
    addFinding (addTarget emptyStore "https://example.com/a" "recon") "https://example.com/b"
        "dalfox" "HIGH" "XSS" "LOW" =
      (addTarget emptyStore "https://example.com/a" "recon", true) :=
  addFinding_orphan_dropped _ _ _ _ _ _ (by decide)

/-- C9: with allow-list `[".example.com"]` and deny-list
`["admin.example.com"]`, `is_in_scope` accepts `sub.example.com` and rejects
`admin.example.com`, `notexample.com` and `example.com.evil.com`. -/
theorem scope_round_trip :
    isInScope [".example.com"] ["admin.example.com"] "https://sub.example.com/" = true ∧
    isInScope [".example.com"] ["admin.example.com"] "https://admin.example.com/" = false ∧
    isInScope [".example.com"] ["admin.example.com"] "https://notexample.com/" = false ∧
    isInScope [".example.com"] ["admin.example.com"] "https://example.com.evil.com/" = false := by
  decide

/-- C10: `checkpoint()` closes the calling thread's cached connection but
leaves the closed object cached, so on that thread a subsequent
`get_pending_tasks` raises (no handler, closed connection), while
`add_target`, `update_task_status` and `add_finding` catch the error, log it
(the `true` flag) and change nothing. -/
theorem checkpoint_poisons_connection (m : SM) (url stage status turl tool sev desc conf : String)
    (sg : Option String) (limit : Nat) :
    (smCheckpoint m).conn = { cached := true, closed := true } ∧
    (smCheckpoint m).store = m.store ∧
    (smGetPendingTasks (smCheckpoint m) limit).1 = .raised ∧
    smAddTarget (smCheckpoint m) url stage = (smCheckpoint m, true) ∧
    smUpdateTaskStatus (smCheckpoint m) url status sg = (smCheckpoint m, true) ∧
    smAddFinding (smCheckpoint m) turl tool sev desc conf = (smCheckpoint m, true) := by
  obtain ⟨st, ca, cl⟩ := m
  cases ca <;> cases cl <;>
    simp [smCheckpoint, getConn, smGetPendingTasks, smAddTarget, smUpdateTaskStatus, smAddFinding]

/-- The classification contract in the spec's words (for the comparison in
C8): a first-match function over the fixed rule order
API markers > CMS markers > script (`.js`) extension > login/auth/admin
keywords > has query parameters > default static. -/
def classifyRuleOrderSpec (url : String) : TargetType :=
  if apiMatch url.data then .api
  else if cmsMatch url.data then .cms
  else if ".js".data.isSuffixOf (toLowerL (parseUrl url.data).path) then .js_file
  else if loginMatch url.data then .login
  else if classifyParams (parseUrl url.data).query ≠ [] then .dynamic
  else .static

/-- C8: URL classification is a deterministic first-match function in the
fixed order API > CMS > script extension > login keywords > dynamic >
static; `/login?next=/x` classifies LOGIN; and a URL matching a login
keyword is never classified DYNAMIC (a higher-priority rule may still take
it). -/
theorem classify_first_match_order :
    (∀ url, (classify url).targetType = classifyRuleOrderSpec url) ∧
    (classify "/login?next=/x").targetType = TargetType.login ∧
    (∀ url, loginMatch url.data = true → (classify url).targetType ≠ TargetType.dynamic) := by
  refine ⟨?_, by decide, ?_⟩
  · intro url
    simp only [classify, classifyRuleOrderSpec]
    split_ifs <;> rfl
  · intro url h
    simp only [classify]
    split_ifs <;> simp_all

/-- Witness for C8's login-never-dynamic clause at a concrete URL. -/
theorem classify_first_match_order_witness :
    loginMatch "https://h/admin.php?x=1".data = true ∧
    (classify "https://h/admin.php?x=1").targetType ≠ TargetType.dynamic :=
  ⟨by decide, classify_first_match_order.2.2 "https://h/admin.php?x=1" (by decide)⟩

/-- Counterexample to C1: `update_task_status` — and through it the Router's
store-mirroring during `route_targets` — sets a `completed` Target straight
back to `pending`: the transition system is not monotonic. -/
theorem status_reversion_example :
    (findTarget
        (updateTaskStatus (addTarget emptyStore "https://example.com/a" "recon")
          "https://example.com/a" "completed" (some "scanned"))
        "https://example.com/a").map Target.status = some "completed" ∧
    (findTarget
        (updateTaskStatus
          (updateTaskStatus (addTarget emptyStore "https://example.com/a" "recon")
            "https://example.com/a" "completed" (some "scanned"))
          "https://example.com/a" "pending" (some "dynamic"))
        "https://example.com/a").map Target.status = some "pending" ∧
    (findTarget
        (routeTargets
          (updateTaskStatus (addTarget emptyStore "https://example.com/a" "recon")
            "https://example.com/a" "completed" (some "scanned"))
          emptyRouter ["https://example.com/a"]).2
        "https://example.com/a").map Target.status = some "pending" := by
  decide

/-- Counterexample to C2: a unit whose dalfox subprocess exceeds its
wall-clock timeout is NOT marked failed — `scan_target` still marks it
`completed` — and the caught timeout contributes a marker result that IS
aggregated by `_run_scans`. -/
theorem timeout_completed_example :
    (scanTarget ⟨.timeout, .timeout, .ok [], false, false⟩
        (addTarget emptyStore "https://example.com/search.php?q=test" "dynamic")
        ⟨"https://example.com/search.php?q=test", .dynamic, ["q"]⟩).1 =
      [⟨"dalfox", "https://example.com/search.php?q=test", "INFO", "Scan timed out", false⟩] ∧
    (findTarget
        (scanTarget ⟨.timeout, .timeout, .ok [], false, false⟩
          (addTarget emptyStore "https://example.com/search.php?q=test" "dynamic")
          ⟨"https://example.com/search.php?q=test", .dynamic, ["q"]⟩).2
        "https://example.com/search.php?q=test").map Target.status = some "completed" ∧
    (runScans ⟨.timeout, .timeout, .ok [], false, false⟩
        (addTarget emptyStore "https://example.com/search.php?q=test" "dynamic")
        [⟨"https://example.com/search.php?q=test", .dynamic, ["q"]⟩]).1 ≠ [] := by
  decide

/-- Counterexample to C3: a Store pre-seeded with one pending target (and
zero completed) whose url ends in a static extension makes the run schedule
zero targets, not one — the resumed URLs are pushed through routing again,
which drops them. -/
theorem resume_drops_static_example :
    (getPendingTasks (addTarget emptyStore "https://example.com/style.css" "recon") 500).length = 1 ∧
    ((addTarget emptyStore "https://example.com/style.css" "recon").targets.filter
        (fun t => decide (t.status = "completed"))).length = 0 ∧
    (runPipeline (addTarget emptyStore "https://example.com/style.css" "recon")
        ["https://example.com/other"]).1.length = 0 := by
  decide

/-- Counterexample to C4: `route_targets` enqueues a URL the Store has never
seen, and the mirroring `update_task_status` — an UPDATE matching zero
rows — creates no Target row for it. -/
theorem route_mirror_no_insert_example :
    (routeTargets emptyStore emptyRouter ["https://example.com/x"]).1.queues.map
        RoutedTarget.url = ["https://example.com/x"] ∧
    (routeTargets emptyStore emptyRouter ["https://example.com/x"]).2.targets = [] := by
  decide

/-! ### Facts about the UPDATE's per-row effect -/

theorem applyUpd_url (status : String) (stage : Option String) (t : Target) :
    (applyUpd status stage t).url = t.url := by
  cases stage with
  | none => rfl
  | some sg => by_cases h : sg = "" <;> simp [applyUpd, h]

theorem applyUpd_status (status : String) (stage : Option String) (t : Target) :
    (applyUpd status stage t).status = status := by
  cases stage with
  | none => rfl
  | some sg => by_cases h : sg = "" <;> simp [applyUpd, h]

theorem applyUpd_stage {sg : String} (status : String) (t : Target) (h : sg ≠ "") :
    (applyUpd status (some sg) t).stage = sg := by
  simp [applyUpd, h]

theorem mem_updateTaskStatus {s : Store} {url status : String} {stage : Option String}
    {t : Target} :
    t ∈ (updateTaskStatus s url status stage).targets ↔
      ∃ t0 ∈ s.targets, (if t0.url = url then applyUpd status stage t0 else t0) = t := by
  simp [updateTaskStatus, List.mem_map]

theorem exists_url_updateTaskStatus (s : Store) (url status : String) (stage : Option String)
    (u : String) :
    (∃ t ∈ (updateTaskStatus s url status stage).targets, t.url = u) ↔
      (∃ t ∈ s.targets, t.url = u) := by
  constructor
  · rintro ⟨t, ht, hu⟩
    obtain ⟨t0, ht0, he⟩ := mem_updateTaskStatus.mp ht
    refine ⟨t0, ht0, ?_⟩
    by_cases h0 : t0.url = url
    · rw [← hu, ← he, if_pos h0, applyUpd_url]
    · rw [← hu, ← he, if_neg h0]
  · rintro ⟨t0, ht0, hu⟩
    by_cases h0 : t0.url = url
    · exact ⟨applyUpd status stage t0,
        mem_updateTaskStatus.mpr ⟨t0, ht0, by rw [if_pos h0]⟩, by rw [applyUpd_url]; exact hu⟩
    · exact ⟨t0, mem_updateTaskStatus.mpr ⟨t0, ht0, by rw [if_neg h0]⟩, hu⟩

/-- C1 (amended): status transitions are NOT guarded: `update_task_status`
writes its status argument unconditionally to every row with the given url,
so the Router's store-mirroring during `route_targets` moves a Target whose
status is `completed` or `failed` back to `pending`; the Scheduler's
per-unit updates themselves only ever write `completed` or `failed` (they
never revert a finished target to `pending`/`processing`). -/
theorem update_status_unguarded :
    (∀ (s : Store) (url status : String) (stage : Option String) (t : Target),
        t ∈ (updateTaskStatus s url status stage).targets → t.url = url →
        t.status = status) ∧
    (∀ (env : ToolEnv) (s : Store) (rt : RoutedTarget) (t : Target),
        t ∈ (scanTarget env s rt).2.targets →
        t.status = "completed" ∨ t.status = "failed" ∨ t ∈ s.targets) ∧
    (findTarget
        (routeTargets
          (updateTaskStatus (addTarget emptyStore "https://example.com/b" "recon")
            "https://example.com/b" "failed" none)
          emptyRouter ["https://example.com/b"]).2
        "https://example.com/b").map Target.status = some "pending" := by
  refine ⟨?_, ?_, by decide⟩
  · intro s url status stage t ht hu
    obtain ⟨t0, _, he⟩ := mem_updateTaskStatus.mp ht
    by_cases h0 : t0.url = url
    · rw [← he, if_pos h0, applyUpd_status]
    · rw [if_neg h0] at he
      rw [he] at h0
      exact absurd hu h0
  · intro env s rt t ht
    have key : ∀ (st sg : String) (t : Target),
        t ∈ (updateTaskStatus s rt.url st sg).targets →
        t.status = st ∨ t ∈ s.targets := by
      intro st sg t' ht'
      obtain ⟨t0, ht0, he⟩ := mem_updateTaskStatus.mp ht'
      by_cases h0 : t0.url = rt.url
      · left; rw [← he, if_pos h0, applyUpd_status]
      · right; rw [← he, if_neg h0]; exact ht0
    have keyn : ∀ (st : String) (t : Target),
        t ∈ (updateTaskStatus s rt.url st none).targets →
        t.status = st ∨ t ∈ s.targets := by
      intro st t' ht'
      obtain ⟨t0, ht0, he⟩ := mem_updateTaskStatus.mp ht'
      by_cases h0 : t0.url = rt.url
      · left; rw [← he, if_pos h0, applyUpd_status]
      · right; rw [← he, if_neg h0]; exact ht0
    by_cases hr : env.dispatchRaises = true
    · have : (scanTarget env s rt).2 = updateTaskStatus s rt.url "failed" none := by
        simp [scanTarget, hr]
      rw [this] at ht
      rcases keyn "failed" t ht with h | h
      · exact Or.inr (Or.inl h)
      · exact Or.inr (Or.inr h)
    · have hr' : env.dispatchRaises = false := by
        simpa using hr
      have : (scanTarget env s rt).2 = updateTaskStatus s rt.url "completed" (some "scanned") := by
        simp [scanTarget, hr']
      rw [this] at ht
      rcases key "completed" "scanned" t ht with h | h
      · exact Or.inl h
      · exact Or.inr (Or.inr h)

/-- Witness for C1 (amended): the unconditional write observed on a concrete
store. -/
theorem update_status_unguarded_witness :
    ({ id := 1, url := "https://example.com/b", status := "pending", stage := "recon" } : Target).status =
      "pending" :=
  update_status_unguarded.1 (addTarget emptyStore "https://example.com/b" "recon")
    "https://example.com/b" "pending" none
    { id := 1, url := "https://example.com/b", status := "pending", stage := "recon" }
    (by decide) (by decide)

/-- C2 (amended): a subprocess timeout is caught inside the tool wrapper and
is NOT the unit's failure outcome. When the dispatch body does not raise,
the unit completes and its target is marked `completed` (stage `scanned`) in
the Store — also after a timeout; for a DYNAMIC target whose dalfox call
times out, the caught handler's `"Scan timed out"` marker (success=False) is
among the unit's results and is added to the in-memory aggregation by
`_run_scans`. Status `failed` is written only when the dispatch body itself
raises, and then the unit contributes no results. -/
theorem timeout_not_unit_failure (env : ToolEnv) (s : Store) (rt : RoutedTarget) :
    (env.dispatchRaises = false →
      ∀ t ∈ (scanTarget env s rt).2.targets, t.url = rt.url →
        t.status = "completed" ∧ t.stage = "scanned") ∧
    (env.dispatchRaises = false → env.dalfox = .timeout → rt.targetType = .dynamic →
      (⟨"dalfox", rt.url, "INFO", "Scan timed out", false⟩ : ScanResult) ∈
          (scanTarget env s rt).1 ∧
      (⟨"dalfox", rt.url, "INFO", "Scan timed out", false⟩ : ScanResult) ∈
          (runScans env s [rt]).1) ∧
    (env.dispatchRaises = true →
      (scanTarget env s rt).1 = [] ∧
      ∀ t ∈ (scanTarget env s rt).2.targets, t.url = rt.url → t.status = "failed") := by
  refine ⟨?_, ?_, ?_⟩
  · intro hr t ht hu
    have hs : (scanTarget env s rt).2 = updateTaskStatus s rt.url "completed" (some "scanned") := by
      simp [scanTarget, hr]
    rw [hs] at ht
    obtain ⟨t0, _, he⟩ := mem_updateTaskStatus.mp ht
    by_cases h0 : t0.url = rt.url
    · rw [← he, if_pos h0]
      exact ⟨applyUpd_status _ _ _, applyUpd_stage _ _ (by decide)⟩
    · rw [if_neg h0] at he
      rw [he] at h0
      exact absurd hu h0
  · intro hr hd hty
    have hres : (scanTarget env s rt).1 =
        runDalfox env rt.url ++ runSqlmap env rt.url := by
      simp [scanTarget, hr, hty]
    have hmark : (⟨"dalfox", rt.url, "INFO", "Scan timed out", false⟩ : ScanResult) ∈
        (scanTarget env s rt).1 := by
      rw [hres]
      apply List.mem_append_left
      rw [runDalfox, hd]
      exact List.mem_singleton.mpr rfl
    refine ⟨hmark, ?_⟩
    have : (runScans env s [rt]).1 = (scanTarget env s rt).1 := by
      simp [runScans]
    rw [this]
    exact hmark
  · intro hr
    have hs : scanTarget env s rt = ([], updateTaskStatus s rt.url "failed" none) := by
      simp [scanTarget, hr]
    refine ⟨by rw [hs], ?_⟩
    intro t ht hu
    rw [hs] at ht
    obtain ⟨t0, _, he⟩ := mem_updateTaskStatus.mp ht
    by_cases h0 : t0.url = rt.url
    · rw [← he, if_pos h0, applyUpd_status]
    · rw [if_neg h0] at he
      rw [he] at h0
      exact absurd hu h0

/-- Witness for C2 (amended) at a concrete timed-out DYNAMIC unit. -/
theorem timeout_not_unit_failure_witness :
    (⟨"dalfox", "https://example.com/s.php?q=1", "INFO", "Scan timed out", false⟩ : ScanResult) ∈
        (scanTarget ⟨.timeout, .timeout, .ok [], false, false⟩
          (addTarget emptyStore "https://example.com/s.php?q=1" "dynamic")
          ⟨"https://example.com/s.php?q=1", .dynamic, ["q"]⟩).1 ∧
    (⟨"dalfox", "https://example.com/s.php?q=1", "INFO", "Scan timed out", false⟩ : ScanResult) ∈
        (runScans ⟨.timeout, .timeout, .ok [], false, false⟩
          (addTarget emptyStore "https://example.com/s.php?q=1" "dynamic")
          [⟨"https://example.com/s.php?q=1", .dynamic, ["q"]⟩]).1 :=
  (timeout_not_unit_failure ⟨.timeout, .timeout, .ok [], false, false⟩
      (addTarget emptyStore "https://example.com/s.php?q=1" "dynamic")
      ⟨"https://example.com/s.php?q=1", .dynamic, ["q"]⟩).2.1 rfl rfl rfl

/-! ### Facts about the routing loop -/

theorem classify_url (u : String) : (classify u).url = u := by
  simp only [classify]
  split_ifs <;> rfl

theorem TargetType.value_ne_empty (tt : TargetType) : tt.value ≠ "" := by
  cases tt <;> decide

/-- The active branch of the loop body: a stripped, nonempty, non-static URL
with an unseen signature is enqueued and mirrored into the Store. -/
theorem routeStep_active {rs : RouterState} {store : Store} {u : String}
    (h2 : strip u ≠ "") (h3 : isStaticAsset (strip u) = false)
    (h4 : getSignature (strip u) ∉ rs.seen) :
    routeStep (rs, store) u =
      ({ seen := rs.seen ++ [getSignature (strip u)],
         queues := rs.queues ++ [classify (strip u)] },
        updateTaskStatus store (strip u) "pending"
          (some (classify (strip u)).targetType.value)) := by
  simp only [routeStep]
  rw [if_neg h2, if_neg (by simp [h3]), if_neg h4]

theorem routeStep_fresh {rs : RouterState} {store : Store} {u : String}
    (h1 : strip u = u) (h2 : u ≠ "") (h3 : isStaticAsset u = false)
    (h4 : getSignature u ∉ rs.seen) :
    routeStep (rs, store) u =
      ({ seen := rs.seen ++ [getSignature u], queues := rs.queues ++ [classify u] },
        updateTaskStatus store u "pending" (some (classify u).targetType.value)) := by
  rw [routeStep_active (by rw [h1]; exact h2) (by rw [h1]; exact h3) (by rw [h1]; exact h4), h1]

/-- A skipped URL (empty after strip, static, or an already-seen signature)
leaves both the router state and the Store untouched. -/
theorem routeStep_skip {rs : RouterState} {store : Store} {u : String}
    (h : strip u = "" ∨ isStaticAsset (strip u) = true ∨ getSignature (strip u) ∈ rs.seen) :
    routeStep (rs, store) u = (rs, store) := by
  rcases h with h | h | h
  · simp [routeStep, h]
  · simp only [routeStep]
    by_cases he : strip u = ""
    · rw [if_pos he]
    · rw [if_neg he, if_pos h]
  · simp only [routeStep]
    by_cases he : strip u = ""
    · rw [if_pos he]
    · rw [if_neg he]
      by_cases hs : isStaticAsset (strip u) = true
      · rw [if_pos hs]
      · rw [if_neg hs, if_pos h]

/-- URLs that all survive routing (strip-fixed, nonempty, non-static, with
pairwise-distinct signatures none of which was seen before) are enqueued one
to one, in order. -/
theorem routeTargets_all_fresh :
    ∀ (urls : List String) (store : Store) (rs : RouterState),
      (∀ u ∈ urls, strip u = u ∧ u ≠ "" ∧ isStaticAsset u = false ∧ getSignature u ∉ rs.seen) →
      (urls.map getSignature).Nodup →
      (routeTargets store rs urls).1.queues = rs.queues ++ urls.map classify := by
  intro urls
  induction urls with
  | nil => intro store rs _ _; simp [routeTargets]
  | cons u rest ih =>
    intro store rs hok hnd
    obtain ⟨h1, h2, h3, h4⟩ := hok u (List.mem_cons_self u rest)
    have hstep := @routeStep_fresh rs store u h1 h2 h3 h4
    have hrw : routeTargets store rs (u :: rest) =
        routeTargets (updateTaskStatus store u "pending" (some (classify u).targetType.value))
          ⟨rs.seen ++ [getSignature u], rs.queues ++ [classify u]⟩ rest := by
      simp only [routeTargets, List.foldl_cons, hstep]
    rw [hrw]
    have hnd' : (rest.map getSignature).Nodup := (List.nodup_cons.mp hnd).2
    have hhead : getSignature u ∉ rest.map getSignature := (List.nodup_cons.mp hnd).1
    have hok' : ∀ v ∈ rest, strip v = v ∧ v ≠ "" ∧ isStaticAsset v = false ∧
        getSignature v ∉ rs.seen ++ [getSignature u] := by
      intro v hv
      obtain ⟨g1, g2, g3, g4⟩ := hok v (List.mem_cons_of_mem u hv)
      refine ⟨g1, g2, g3, ?_⟩
      intro hmem
      rcases List.mem_append.mp hmem with hmem | hmem
      · exact g4 hmem
      · have : getSignature v = getSignature u := List.mem_singleton.mp hmem
        exact hhead (this ▸ List.mem_map_of_mem getSignature hv)
    rw [ih _ _ hok' hnd']
    simp [List.append_assoc]

/-- C3 (amended): with pending targets present at run start, ingestion
(recon) is skipped — the recon output is irrelevant to the run — but routing
is NOT skipped: the pending URLs are pushed through `route_targets` again,
and exactly those N targets are scheduled provided every pending url
survives routing (unchanged by strip, nonempty, not a static asset) and the
dedup signatures are pairwise distinct; otherwise fewer are scheduled (N is
within the 500-row fetch limit by construction). -/
theorem resume_skips_ingestion_only (store : Store) (recon1 recon2 : List String)
    (hne : getPendingTasks store 500 ≠ [])
    (hok : ∀ t ∈ getPendingTasks store 500,
      strip t.url = t.url ∧ t.url ≠ "" ∧ isStaticAsset t.url = false)
    (hsig : ((getPendingTasks store 500).map (fun t => getSignature t.url)).Nodup) :
    runPipeline store recon1 = runPipeline store recon2 ∧
    (runPipeline store recon1).1.map RoutedTarget.url =
      (getPendingTasks store 500).map Target.url := by
  have hie : (getPendingTasks store 500).isEmpty = false := by
    simpa [List.isEmpty_eq_false] using hne
  have hue : ((getPendingTasks store 500).map (fun t => t.url)).isEmpty = false := by
    simp only [List.isEmpty_eq_false] at hie ⊢
    simpa using hie
  constructor
  · simp only [runPipeline, hie, if_neg, Bool.false_eq_true, if_false, hue]
  · have hq : (runPipeline store recon1).1 =
        ((getPendingTasks store 500).map (fun t => t.url)).map classify := by
      simp only [runPipeline, hie, Bool.false_eq_true, if_false, hue]
      have := routeTargets_all_fresh ((getPendingTasks store 500).map (fun t => t.url))
        store emptyRouter
        (by
          intro u hu
          obtain ⟨t, ht, rfl⟩ := List.mem_map.mp hu
          obtain ⟨g1, g2, g3⟩ := hok t ht
          exact ⟨g1, g2, g3, List.not_mem_nil _⟩)
        (by simpa [List.map_map] using hsig)
      simpa [emptyRouter] using this
    rw [hq]
    simp only [List.map_map]
    apply List.map_congr_left
    intro t _
    simp [Function.comp, classify_url]

/-- Witness for C3 (amended) on a Store holding two routable pending urls. -/
theorem resume_skips_ingestion_only_witness :
    runPipeline (addTarget (addTarget emptyStore "https://example.com/a" "recon")
        "https://example.com/b?q=1" "recon") ["https://x/"] =
      runPipeline (addTarget (addTarget emptyStore "https://example.com/a" "recon")
        "https://example.com/b?q=1" "recon") [] ∧
    (runPipeline (addTarget (addTarget emptyStore "https://example.com/a" "recon")
        "https://example.com/b?q=1" "recon") ["https://x/"]).1.map RoutedTarget.url =
      (getPendingTasks (addTarget (addTarget emptyStore "https://example.com/a" "recon")
        "https://example.com/b?q=1" "recon") 500).map Target.url :=
  resume_skips_ingestion_only
    (addTarget (addTarget emptyStore "https://example.com/a" "recon")
      "https://example.com/b?q=1" "recon")
    ["https://x/"] [] (by decide) (by decide) (by decide)

/-! ### The Store-mirroring invariant of `route_targets` (for C4) -/

/-- Invariant carried through the routing fold, relative to the Store at
entry (`store0`): every enqueued target's signature is in `seen`; routing
never creates or deletes rows (per-url row existence matches `store0`); and
every row whose url was enqueued holds status `pending` and the enqueued
type's name as its stage. -/
def RouteInv (store0 : Store) (p : RouterState × Store) : Prop :=
  (∀ rt ∈ p.1.queues, getSignature rt.url ∈ p.1.seen) ∧
  (∀ u : String, (∃ t ∈ p.2.targets, t.url = u) ↔ (∃ t ∈ store0.targets, t.url = u)) ∧
  (∀ rt ∈ p.1.queues, ∀ t ∈ p.2.targets, t.url = rt.url →
      t.status = "pending" ∧ t.stage = rt.targetType.value)

theorem routeStep_inv {store0 : Store} {p : RouterState × Store} {u : String}
    (h : RouteInv store0 p) : RouteInv store0 (routeStep p u) := by
  obtain ⟨rs, store⟩ := p
  obtain ⟨hseen, hrows, hstage⟩ := h
  by_cases he : strip u = ""
  · rw [routeStep_skip (Or.inl he)]; exact ⟨hseen, hrows, hstage⟩
  by_cases hst : isStaticAsset (strip u) = true
  · rw [routeStep_skip (Or.inr (Or.inl hst))]; exact ⟨hseen, hrows, hstage⟩
  by_cases hsg : getSignature (strip u) ∈ rs.seen
  · rw [routeStep_skip (Or.inr (Or.inr hsg))]; exact ⟨hseen, hrows, hstage⟩
  have hst' : isStaticAsset (strip u) = false := by simpa using hst
  rw [@routeStep_active rs store u he hst' hsg]
  refine ⟨?_, ?_, ?_⟩
  · intro rt hrt
    rcases List.mem_append.mp hrt with hrt | hrt
    · exact List.mem_append_left _ (hseen rt hrt)
    · rw [List.mem_singleton.mp hrt, classify_url]
      exact List.mem_append_right _ (List.mem_singleton.mpr rfl)
  · intro v
    rw [exists_url_updateTaskStatus]
    exact hrows v
  · intro rt hrt t ht hu
    obtain ⟨t0, ht0, he0⟩ := mem_updateTaskStatus.mp ht
    rcases List.mem_append.mp hrt with hrt | hrt
    · -- a previously enqueued target: the new UPDATE cannot touch its url,
      -- else its signature would already have been seen
      by_cases h0 : t0.url = strip u
      · exfalso
        rw [← he0, if_pos h0, applyUpd_url] at hu
        rw [hu] at h0
        exact hsg (h0 ▸ hseen rt hrt)
      · rw [if_neg h0] at he0
        exact hstage rt hrt t (he0 ▸ ht0) hu
    · -- the freshly enqueued target: its row (when present) was just updated
      rw [List.mem_singleton.mp hrt, classify_url] at hu
      by_cases h0 : t0.url = strip u
      · rw [← he0, if_pos h0]
        rw [List.mem_singleton.mp hrt]
        exact ⟨applyUpd_status _ _ _,
          applyUpd_stage _ _ (TargetType.value_ne_empty _)⟩
      · exfalso
        rw [if_neg h0] at he0
        rw [he0] at h0
        exact h0 hu

theorem routeTargets_inv (store0 : Store) (urls : List String) :
    ∀ p : RouterState × Store, RouteInv store0 p → RouteInv store0 (urls.foldl routeStep p) := by
  induction urls with
  | nil => intro p h; exact h
  | cons u rest ih => intro p h; exact ih (routeStep p u) (routeStep_inv h)

/-- C4 (amended): for every URL that `route_targets` enqueues, the mirroring
into the Store is an UPDATE: if a Target row for that url already existed,
after `route_targets` it exists with status `pending` and stage equal to the
classified type's name; if no row existed, none is created — the mirror is a
silent no-op for urls the Store has never seen. -/
theorem route_mirror_updates_existing_only (store : Store) (urls : List String)
    (rt : RoutedTarget) (hq : rt ∈ (routeTargets store emptyRouter urls).1.queues) :
    ((∃ t ∈ store.targets, t.url = rt.url) →
      (∃ t ∈ (routeTargets store emptyRouter urls).2.targets, t.url = rt.url) ∧
      ∀ t ∈ (routeTargets store emptyRouter urls).2.targets, t.url = rt.url →
        t.status = "pending" ∧ t.stage = rt.targetType.value) ∧
    ((∀ t ∈ store.targets, t.url ≠ rt.url) →
      ∀ t ∈ (routeTargets store emptyRouter urls).2.targets, t.url ≠ rt.url) := by
  have hbase : RouteInv store (emptyRouter, store) :=
    ⟨fun rt h => absurd h (List.not_mem_nil rt), fun u => Iff.rfl,
      fun rt h => absurd h (List.not_mem_nil rt)⟩
  have hinv : RouteInv store (routeTargets store emptyRouter urls) :=
    routeTargets_inv store urls (emptyRouter, store) hbase
  obtain ⟨_, hrows, hstage⟩ := hinv
  constructor
  · intro hex
    exact ⟨(hrows rt.url).mpr hex, fun t ht hu => hstage rt hq t ht hu⟩
  · intro hnone t ht hu
    obtain ⟨t0, ht0, hu0⟩ := (hrows rt.url).mp ⟨t, ht, hu⟩
    exact hnone t0 ht0 hu0

/-- Witness for C4 (amended) at a pre-seeded Store and one routed url. -/
theorem route_mirror_updates_existing_only_witness :
    ((∃ t ∈ (addTarget emptyStore "https://example.com/p?id=1" "router").targets,
        t.url = "https://example.com/p?id=1") →
      (∃ t ∈ (routeTargets (addTarget emptyStore "https://example.com/p?id=1" "router")
          emptyRouter ["https://example.com/p?id=1"]).2.targets,
        t.url = "https://example.com/p?id=1") ∧
      ∀ t ∈ (routeTargets (addTarget emptyStore "https://example.com/p?id=1" "router")
          emptyRouter ["https://example.com/p?id=1"]).2.targets,
        t.url = "https://example.com/p?id=1" →
        t.status = "pending" ∧ t.stage = TargetType.dynamic.value) ∧
    ((∀ t ∈ (addTarget emptyStore "https://example.com/p?id=1" "router").targets,
        t.url ≠ "https://example.com/p?id=1") →
      ∀ t ∈ (routeTargets (addTarget emptyStore "https://example.com/p?id=1" "router")
          emptyRouter ["https://example.com/p?id=1"]).2.targets,
        t.url ≠ "https://example.com/p?id=1") :=
  route_mirror_updates_existing_only
    (addTarget emptyStore "https://example.com/p?id=1" "router")
    ["https://example.com/p?id=1"]
    ⟨"https://example.com/p?id=1", .dynamic, ["id"]⟩ (by decide)

/-! ### The dedup signature depends only on the parameter-name set (for C7) -/

/-- Two query strings whose parameter-name lists carry the same names (as a
set) produce the same sorted key list: both `sortedKeysOf` are sorted,
duplicate-free, and have the same members. -/
theorem sortedKeysOf_ext {q1 q2 : Chars}
    (h : ∀ k, k ∈ (qslPairs true q1).map (·.1) ↔ k ∈ (qslPairs true q2).map (·.1)) :
    sortedKeysOf q1 = sortedKeysOf q2 := by
  unfold sortedKeysOf
  have d12 : ((qslPairs true q1).map (·.1)).dedup.Perm ((qslPairs true q2).map (·.1)).dedup := by
    rw [List.perm_ext_iff_of_nodup (List.nodup_dedup _) (List.nodup_dedup _)]
    intro k
    rw [List.mem_dedup, List.mem_dedup]
    exact h k
  exact List.eq_of_perm_of_sorted
    (((List.perm_insertionSort _ _).trans d12).trans (List.perm_insertionSort _ _).symm)
    (List.sorted_insertionSort _ _) (List.sorted_insertionSort _ _)

/-- C7: URLs sharing netloc, path and the set of query-parameter names get
the same dedup signature; `/page.php?id=1` and `/page.php?id=999` collapse
to one queued entry with the first-seen URL kept; and
`/page.php?id=1&cat=2` has a signature distinct from `/page.php?id=1`. -/
theorem dedup_signature_param_names :
    (∀ u1 u2 : String,
      (parseUrl u1.data).netloc = (parseUrl u2.data).netloc →
      (parseUrl u1.data).path = (parseUrl u2.data).path →
      (∀ k, k ∈ (qslPairs true (parseUrl u1.data).query).map (·.1) ↔
            k ∈ (qslPairs true (parseUrl u2.data).query).map (·.1)) →
      getSignature u1 = getSignature u2) ∧
    (routeTargets emptyStore emptyRouter ["/page.php?id=1", "/page.php?id=999"]).1.queues.map
        RoutedTarget.url = ["/page.php?id=1"] ∧
    getSignature "/page.php?id=1" = getSignature "/page.php?id=999" ∧
    getSignature "/page.php?id=1&cat=2" ≠ getSignature "/page.php?id=1" := by
  refine ⟨?_, by decide, by decide, by decide⟩
  intro u1 u2 hn hp hk
  simp only [getSignature, getSignatureL]
  rw [hn, hp, sortedKeysOf_ext hk]

/-- Witness for C7's general clause: same parameter names, different values
and a different order, same signature. -/
theorem dedup_signature_param_names_witness :
    getSignature "/a?x=1&y=2" = getSignature "/a?y=3&x=4" :=
  dedup_signature_param_names.1 "/a?x=1&y=2" "/a?y=3&x=4" (by decide) (by decide)
    (by
      intro k
      rw [show (qslPairs true (parseUrl "/a?x=1&y=2".data).query).map (·.1) =
            [['x'], ['y']] from by decide,
        show (qslPairs true (parseUrl "/a?y=3&x=4".data).query).map (·.1) =
            [['y'], ['x']] from by decide]
      constructor <;> intro hm <;>
        (simp only [List.mem_cons, List.not_mem_nil, or_false] at hm ⊢; tauto))

end CVE
